import Mathlib

/-
Verification development for the chunked render aggregation core:
`render_single_image` (model_and_model_component/render_image_LinGaoyuan.py),
the producer/consumer `RenderStateMachine` (render_state_machine.py), and the
per-client `Viewer` session registry (visualization.py).

Tensors are modelled as a shape (list of dimension sizes) together with flat
integer data; only shapes and element order matter for the properties below.
Python dictionaries (which preserve insertion order) are modelled as
association lists; a lookup of a missing key is an explicit error value.
Fallible code returns `Except String`.
-/

namespace MaFinal

/-- A torch tensor, reduced to its shape and flattened integer data. -/
structure Tensor where
  shape : List Nat
  data : List Int
  deriving DecidableEq, Repr

/-- Number of elements of a tensor (product of the dimension sizes). -/
def Tensor.numel (t : Tensor) : Nat := t.shape.prod

/-- torch.cat(ts, dim=0): all tensors must share the trailing dimensions;
the leading dimensions add up.  An empty list or a zero-dimensional tensor
is an error, as in torch. -/
def Tensor.catDim0 : List Tensor → Except String Tensor
  | [] => Except.error "cat: expected a nonempty list of tensors"
  | t :: ts =>
    match t.shape with
    | [] => Except.error "cat: zero-dimensional tensor"
    | n :: tail =>
      if ts.all (fun u => (u.shape.tail == tail) && !u.shape.isEmpty) then
        Except.ok ⟨(n + (ts.map (fun u => u.shape.headD 0)).sum) :: tail,
                   t.data ++ (ts.map Tensor.data).flatten⟩
      else Except.error "cat: tensor shape mismatch"

/-- tensor.reshape((h, w, -1)): the inferred last dimension must divide the
element count evenly, and the known dimensions must be nonzero. -/
def Tensor.reshapeHWInfer (t : Tensor) (h w : Nat) : Except String Tensor :=
  if h * w = 0 then Except.error "reshape: cannot infer dimension"
  else if t.numel % (h * w) = 0 then Except.ok ⟨[h, w, t.numel / (h * w)], t.data⟩
  else Except.error "reshape: shape invalid for input size"

/-- tensor.squeeze(): drops every dimension of size 1. -/
def Tensor.squeeze (t : Tensor) : Tensor := ⟨t.shape.filter (fun d => d != 1), t.data⟩

/-- Length of `torch.ones(n)[::s]`, i.e. the image extent at a given render
stride (python slicing with positive step `s`). -/
def stridedLen (n s : Nat) : Nat := (n + s - 1) / s

/-- Keys of the per-tier output dictionaries ("rgb", "depth", "random_sigma", ...). -/
abbrev Key := String

/-- Ordered-dictionary lookup on an association list. -/
def lookupK {κ β : Type} [DecidableEq κ] (k : κ) : List (κ × β) → Option β
  | [] => none
  | (k1, b) :: rest => if k1 = k then some b else lookupK k rest

/-- One output tier of a chunk result: an insertion-ordered dictionary from
field name to an optional per-ray tensor (`none` models a Python `None` value). -/
abbrev Tier := List (Key × Option Tensor)

/-- Result of one `render_rays` evaluator call: the coarse tier dictionary and
an optional fine tier (`outputs_fine` may be `None`).  Per-sample entries of
the result that no claim observes are elided. -/
structure ChunkResult where
  outputs_coarse : Tier
  outputs_fine : Option Tier
  deriving DecidableEq

/-- Accumulation dictionary `all_ret[tier]`: for each discovered field, the
list of cached per-chunk tensors. -/
abbrev Acc := List (Key × List Tensor)

/-- Schema discovery on the first chunk (`if i == 0` branch): every key of the
tier whose value is not `None` gets an empty accumulation list, in order. -/
def initAcc (tier : Tier) : Acc :=
  (tier.filter (fun p => p.2.isSome)).map (fun p => (p.1, []))

/-- `all_ret[tier][k].append(v)`: append one chunk value to the accumulation
list of field `k`; a missing key is a Python `KeyError`. -/
def appendField : Acc → Key → Tensor → Except String Acc
  | [], k, _ => Except.error ("KeyError: " ++ k)
  | (k1, l) :: rest, k, t =>
    if k1 = k then Except.ok ((k1, l ++ [t]) :: rest)
    else
      match appendField rest k t with
      | Except.error e => Except.error e
      | Except.ok rest1 => Except.ok ((k1, l) :: rest1)

/-- The per-chunk append loop `for k in ret[tier]: if ret[tier][k] is not None:
all_ret[tier][k].append(...)`: iterates over the chunk result in order,
appending every non-`None` value to the accumulator. -/
def appendTier (acc : Acc) : Tier → Except String Acc
  | [] => Except.ok acc
  | (_, none) :: rest => appendTier acc rest
  | (k, some t) :: rest =>
    match appendField acc k t with
    | Except.error e => Except.error e
    | Except.ok acc1 => appendTier acc1 rest

/-- The fine-tier append step: skipped when the chunk has no fine tier; when
the accumulator is `None` (fine tier was null on chunk 1) subscripting it with
any non-`None` field raises a TypeError. -/
def appendFine (accF : Option Acc) : Option Tier → Except String (Option Acc)
  | none => Except.ok accF
  | some tier =>
    match accF with
    | some acc =>
      match appendTier acc tier with
      | Except.error e => Except.error e
      | Except.ok acc1 => Except.ok (some acc1)
    | none =>
      if tier.any (fun p => p.2.isSome) then
        Except.error "TypeError: NoneType is not subscriptable"
      else Except.ok none

/-- The chunk start indices `range(0, N_rays, chunk_size)` of the render loop
(for `chunk_size ≥ 1`; Python rejects a zero step). -/
def renderChunkStarts (N cs : Nat) : List Nat :=
  List.range' 0 ((N + cs - 1) / cs) cs

/-- The per-ray slice `ray_batch[k][i : i + chunk_size]` handed to one
evaluator call. -/
def chunkSlice {Ray : Type} (rays : List Ray) (cs i : Nat) : List Ray :=
  (rays.drop i).take cs

/-- In-flight aggregation state of one render call: the coarse and fine
accumulators plus the cached per-chunk ray-origin slices
(`three_d_data["ray_origins"]`). -/
structure RenderAccState (Ray : Type) where
  accC : Acc
  accF : Option Acc
  rayOChunks : List (List Ray)
  deriving DecidableEq

/-- One iteration of the render loop: record the chunk slice, call the
evaluator, on the first chunk (`i == 0`) discover the schema, then run the
append loops for both tiers. -/
def processChunk {Ray : Type} (eval : List Ray → ChunkResult) (i : Nat)
    (chunkRays : List Ray) (st : RenderAccState Ray) :
    Except String (RenderAccState Ray) :=
  let ret := eval chunkRays
  let st1 : RenderAccState Ray := { st with rayOChunks := st.rayOChunks ++ [chunkRays] }
  let accC0 := if i = 0 then initAcc ret.outputs_coarse else st1.accC
  let accF0 := if i = 0 then ret.outputs_fine.map initAcc else st1.accF
  match appendTier accC0 ret.outputs_coarse with
  | Except.error e => Except.error e
  | Except.ok accC1 =>
    match appendFine accF0 ret.outputs_fine with
    | Except.error e => Except.error e
    | Except.ok accF1 => Except.ok { st1 with accC := accC1, accF := accF1 }

/-- The render loop over all chunk start indices; an evaluator-side or
append-side error aborts the whole render call. -/
def renderLoop {Ray : Type} (eval : List Ray → ChunkResult) :
    List (Nat × List Ray) → RenderAccState Ray → Except String (RenderAccState Ray)
  | [], st => Except.ok st
  | (i, ck) :: rest, st =>
    match processChunk eval i ck st with
    | Except.error e => Except.error e
    | Except.ok st1 => renderLoop eval rest st1

/-- The accumulation phase of `render_single_image`: iterate the chunk loop
over `range(0, N_rays, chunk_size)`.  Initially both tier dictionaries are
empty and no chunk has been cached. -/
def renderAccumulate {Ray : Type} (rays : List Ray) (chunk_size : Nat)
    (eval : List Ray → ChunkResult) : Except String (RenderAccState Ray) :=
  renderLoop eval
    ((renderChunkStarts rays.length chunk_size).map
      (fun i => (i, chunkSlice rays chunk_size i)))
    ⟨[], some [], []⟩

/-- Final value of one field in the returned dictionary: either the raw list
of cached per-chunk tensors (fields skipped by the merge loop keep this), or a
single merged image tensor. -/
inductive DictVal where
  | chunkList (l : List Tensor)
  | tensor (t : Tensor)
  deriving DecidableEq

/-- The merge loop over one tier: `random_sigma` and `depth_cov` are skipped
(`continue`) and keep their list of per-chunk tensors; every other field is
concatenated along the ray axis, reshaped to the strided image grid with an
inferred channel dimension, and squeezed. -/
def finalizeAcc (hs ws : Nat) : Acc → Except String (List (Key × DictVal))
  | [] => Except.ok []
  | (k, l) :: rest =>
    if k = "random_sigma" ∨ k = "depth_cov" then
      match finalizeAcc hs ws rest with
      | Except.error e => Except.error e
      | Except.ok rest1 => Except.ok ((k, DictVal.chunkList l) :: rest1)
    else
      match Tensor.catDim0 l with
      | Except.error e => Except.error e
      | Except.ok c =>
        match c.reshapeHWInfer hs ws with
        | Except.error e => Except.error e
        | Except.ok r =>
          match finalizeAcc hs ws rest with
          | Except.error e => Except.error e
          | Except.ok rest1 => Except.ok ((k, DictVal.tensor r.squeeze) :: rest1)

/-- Merge step for the fine tier: skipped entirely when
`all_ret["outputs_fine"]` is `None`. -/
def finalizeFine (hs ws : Nat) : Option Acc → Except String (Option (List (Key × DictVal)))
  | none => Except.ok none
  | some acc =>
    match finalizeAcc hs ws acc with
    | Except.error e => Except.error e
    | Except.ok out => Except.ok (some out)

/-- The value returned by `render_single_image`: both finalized tier
dictionaries and the concatenated ray origins of `three_d_data`. -/
structure RenderOutputAgg (Ray : Type) where
  outputs_coarse : List (Key × DictVal)
  outputs_fine : Option (List (Key × DictVal))
  threeD_ray_origins : List Ray
  deriving DecidableEq

/-- `render_single_image`: chunked accumulation followed by the per-image
merge.  `H`, `W` and `render_stride` determine the strided grid
`rgb_strided.shape[:2]`; the evaluator is the external `render_rays`. -/
def render_single_image {Ray : Type} (rays : List Ray) (chunk_size : Nat)
    (eval : List Ray → ChunkResult) (H W render_stride : Nat) :
    Except String (RenderOutputAgg Ray) :=
  match renderAccumulate rays chunk_size eval with
  | Except.error e => Except.error e
  | Except.ok st =>
    let hs := stridedLen H render_stride
    let ws := stridedLen W render_stride
    match finalizeAcc hs ws st.accC with
    | Except.error e => Except.error e
    | Except.ok outC =>
      match finalizeFine hs ws st.accF with
      | Except.error e => Except.error e
      | Except.ok outF => Except.ok ⟨outC, outF, st.rayOChunks.flatten⟩

/-- Joining the slices taken at starts `s, s + cs, ...` (k of them) recovers a
contiguous segment of the list. -/
lemma flatten_chunkSlices {α : Type} (cs k : Nat) :
    ∀ (s : Nat) (xs : List α),
      ((List.range' s k cs).map (fun i => (xs.drop i).take cs)).flatten
        = (xs.drop s).take (k * cs) := by
  induction k with
  | zero => intro s xs; simp
  | succ k ih =>
    intro s xs
    have h1 : (k + 1) * cs = cs + k * cs := by ring
    rw [List.range'_succ, List.map_cons, List.flatten_cons, ih (s + cs), h1,
      List.take_add, List.drop_drop]

/-- Ceiling division bound: `b * ceil(a / b)` covers `a`. -/
lemma le_ceil_mul (a b : Nat) (hb : 0 < b) : a ≤ (a + b - 1) / b * b := by
  have h := Nat.lt_div_mul_add (a := a + b - 1) (b := b) hb
  omega

/-- Every chunk start produced by the render loop lies inside the ray batch. -/
lemma renderChunkStarts_lt (N cs : Nat) (hcs : 0 < cs) (hN : 0 < N) :
    ∀ i ∈ renderChunkStarts N cs, i < N := by
  intro i hi
  rw [renderChunkStarts] at hi
  obtain ⟨j, hj, rfl⟩ := List.mem_range'.1 hi
  have hceil : (N + cs - 1) / cs = (N - 1) / cs + 1 := by
    have h2 : N + cs - 1 = (N - 1) + 1 * cs := by omega
    rw [h2, Nat.add_mul_div_right _ _ hcs]
  have hj2 : j ≤ (N - 1) / cs := by omega
  have h3 : cs * j ≤ cs * ((N - 1) / cs) := Nat.mul_le_mul_left cs hj2
  have h4 : (N - 1) / cs * cs ≤ N - 1 := Nat.div_mul_le_self _ _
  have h5 : cs * ((N - 1) / cs) = (N - 1) / cs * cs := Nat.mul_comm _ _
  omega

/-- Length of one chunk slice. -/
lemma chunkSlice_length {α : Type} (xs : List α) (cs i : Nat) :
    (chunkSlice xs cs i).length = min cs (xs.length - i) := by
  simp [chunkSlice]

/-- A successful chunk iteration caches exactly its own ray slice. -/
lemma processChunk_rayOChunks {Ray : Type} (eval : List Ray → ChunkResult) (i : Nat)
    (ck : List Ray) (st st1 : RenderAccState Ray)
    (h : processChunk eval i ck st = Except.ok st1) :
    st1.rayOChunks = st.rayOChunks ++ [ck] := by
  simp only [processChunk] at h
  split at h
  · exact absurd h (by simp)
  · split at h
    · exact absurd h (by simp)
    · injection h with h2
      rw [← h2]

/-- A successful render loop caches the ray slices of all its chunks, in
order. -/
lemma renderLoop_rayOChunks {Ray : Type} (eval : List Ray → ChunkResult)
    (pairs : List (Nat × List Ray)) :
    ∀ (st st1 : RenderAccState Ray), renderLoop eval pairs st = Except.ok st1 →
      st1.rayOChunks = st.rayOChunks ++ pairs.map Prod.snd := by
  induction pairs with
  | nil =>
    intro st st1 h
    simp only [renderLoop] at h
    injection h with h2
    rw [← h2]
    simp
  | cons p rest ih =>
    obtain ⟨i, ck⟩ := p
    intro st st1 h
    simp only [renderLoop] at h
    cases h2 : processChunk eval i ck st with
    | error e => rw [h2] at h; simp at h
    | ok stm =>
      rw [h2] at h
      have h3 := ih stm st1 h
      rw [h3, processChunk_rayOChunks eval i ck st stm h2, List.map_cons]
      simp

/-- C1: for every ray batch of N ≥ 1 rays and every chunkSize ≥ 1, the render
loop of `render_single_image` partitions the batch into contiguous,
non-overlapping, order-preserving chunks: joining the chunk slices in order
gives back exactly the original rays (each consumed exactly once, in order),
every chunk is nonempty and of size at most chunkSize, every chunk with
chunkSize rays still available is full (so only the final chunk can be
smaller), and a successful render call reports exactly the original ray batch
as its concatenated consumed ray origins. -/
theorem render_chunking_partitions_rays {Ray : Type} (rays : List Ray) (cs : Nat)
    (hN : 1 ≤ rays.length) (hcs : 1 ≤ cs) :
    ((renderChunkStarts rays.length cs).map (chunkSlice rays cs)).flatten = rays
    ∧ (∀ c ∈ (renderChunkStarts rays.length cs).map (chunkSlice rays cs),
        c ≠ [] ∧ c.length ≤ cs)
    ∧ (∀ i ∈ renderChunkStarts rays.length cs,
        i + cs ≤ rays.length → (chunkSlice rays cs i).length = cs)
    ∧ (∀ (eval : List Ray → ChunkResult) (H W s : Nat) (out : RenderOutputAgg Ray),
        render_single_image rays cs eval H W s = Except.ok out →
        out.threeD_ray_origins = rays) := by
  have hflat : ((renderChunkStarts rays.length cs).map (chunkSlice rays cs)).flatten = rays := by
    simp only [renderChunkStarts]
    show ((List.range' 0 ((rays.length + cs - 1) / cs) cs).map
        (fun i => (rays.drop i).take cs)).flatten = rays
    rw [flatten_chunkSlices, List.drop_zero]
    exact List.take_of_length_le (le_ceil_mul rays.length cs hcs)
  refine ⟨hflat, ?_, ?_, ?_⟩
  · intro c hc
    obtain ⟨i, hi, rfl⟩ := List.mem_map.1 hc
    have hlt := renderChunkStarts_lt rays.length cs hcs hN i hi
    have hlen := chunkSlice_length rays cs i
    constructor
    · rw [← List.length_pos]
      omega
    · omega
  · intro i hi hfit
    have hlen := chunkSlice_length rays cs i
    omega
  · intro eval H W s out h
    simp only [render_single_image] at h
    split at h
    · simp at h
    · rename_i st h1
      split at h
      · simp at h
      · rename_i outC h2
        split at h
        · simp at h
        · rename_i outF h3
          injection h with h4
          rw [← h4]
          simp only [renderAccumulate] at h1
          have h5 := renderLoop_rayOChunks eval _ _ _ h1
          simp only [List.map_map] at h5
          simp only [h5]
          simpa using hflat

/-- Witness for C1 at the concrete batch [0, 1, 2] with chunkSize 2. -/
theorem render_chunking_partitions_rays_witness :
    ((renderChunkStarts (List.length ([0, 1, 2] : List Nat)) 2).map
      (chunkSlice ([0, 1, 2] : List Nat) 2)).flatten = [0, 1, 2] :=
  (render_chunking_partitions_rays [0, 1, 2] 2 (by decide) (by decide)).1

/-- An all-zero per-ray tensor of `n` rays and `c` channels. -/
def zerosT (n c : Nat) : Tensor := ⟨[n, c], List.replicate (n * c) 0⟩

/-- Scenario evaluator of spec section 8: every chunk yields a coarse tier with
fields color and depth (per-ray tensors of the chunk length) and a null fine
tier. -/
def evalScenario10 (chunk : List Nat) : ChunkResult :=
  { outputs_coarse :=
      [("color", some (zerosT chunk.length 3)), ("depth", some (zerosT chunk.length 1))]
  , outputs_fine := none }

/-- Total ray coverage of an accumulation list: sum of the leading (ray)
dimension over the cached per-chunk tensors. -/
def raysOf (l : List Tensor) : Nat := (l.map (fun t => t.shape.headD 0)).sum

/-- C5: a batch of N = 10 rays with chunkSize = 4 is split into chunks of
sizes [4, 4, 2]; with an evaluator returning only a coarse tier with fields
color and depth, the fine accumulator is null, the accumulated coarse color
and depth each cover exactly 10 rays before the reshape, and the finished
render reports a null fine tier. -/
theorem scenario_ten_rays_chunk_four :
    ((renderChunkStarts 10 4).map (chunkSlice (List.range 10) 4)).map List.length = [4, 4, 2]
    ∧ (renderAccumulate (List.range 10) 4 evalScenario10).map
        (fun st => (st.accF, (lookupK "color" st.accC).map raysOf,
          (lookupK "depth" st.accC).map raysOf))
        = Except.ok (none, some 10, some 10)
    ∧ (render_single_image (List.range 10) 4 evalScenario10 5 2 1).map
        (fun o => o.outputs_fine) = Except.ok none := by
  refine ⟨by decide, by rfl, by rfl⟩

/-- Evaluator whose first chunk has a non-null coarse field random_sigma that
every later chunk lacks. -/
def evalDropField (chunk : List Nat) : ChunkResult :=
  if chunk = [0] then
    { outputs_coarse := [("random_sigma", some (zerosT 1 1))], outputs_fine := none }
  else
    { outputs_coarse := [], outputs_fine := none }

/-- Counterexample to C2: a field present and non-null in the first chunk but
missing from the second chunk does NOT make the render call signal an error:
the run completes with Except.ok and the field silently covers only the first
chunk (one cached tensor for a two-ray batch). -/
theorem missing_field_no_error_counterexample :
    (render_single_image [0, 1] 1 evalDropField 2 1 1).map
      (fun o => lookupK "random_sigma" o.outputs_coarse)
      = Except.ok (some (DictVal.chunkList [zerosT 1 1])) := by
  rfl

/-- Appending a value under a different key leaves a key's accumulation list
unchanged. -/
lemma lookupK_appendField_ne (k : Key) :
    ∀ (acc acc1 : Acc) (k1 : Key) (t : Tensor), k1 ≠ k →
      appendField acc k1 t = Except.ok acc1 →
      lookupK k acc1 = lookupK k acc := by
  intro acc
  induction acc with
  | nil => intro acc1 k1 t hne h; simp [appendField] at h
  | cons p rest ih =>
    obtain ⟨k2, l⟩ := p
    intro acc1 k1 t hne h
    simp only [appendField] at h
    by_cases hk : k2 = k1
    · rw [if_pos hk] at h
      injection h with h2
      rw [← h2]
      simp only [lookupK]
      rw [if_neg (by rw [hk]; exact hne), if_neg (by rw [hk]; exact hne)]
    · rw [if_neg hk] at h
      cases h3 : appendField rest k1 t with
      | error e => rw [h3] at h; simp at h
      | ok rest1 =>
        rw [h3] at h
        injection h with h2
        rw [← h2]
        simp only [lookupK]
        by_cases hk2 : k2 = k
        · rw [if_pos hk2, if_pos hk2]
        · rw [if_neg hk2, if_neg hk2]
          exact ih rest1 k1 t hne h3

/-- C2 (amended): a tier field that was present and non-null in the first
chunk but is missing or null in a later chunk is silently skipped for that
chunk: whenever the per-chunk append loop succeeds, the accumulation list of
that field is left exactly as it was, and no error is signalled on account of
the field. -/
theorem later_chunk_missing_field_silently_skipped (tier : Tier) (k : Key) :
    ∀ (acc acc1 : Acc),
      (∀ p ∈ tier, p.1 = k → p.2 = none) →
      appendTier acc tier = Except.ok acc1 →
      lookupK k acc1 = lookupK k acc := by
  induction tier with
  | nil =>
    intro acc acc1 _ h
    simp only [appendTier] at h
    injection h with h2
    rw [← h2]
  | cons p rest ih =>
    obtain ⟨k1, v⟩ := p
    intro acc acc1 hnull h
    cases v with
    | none =>
      simp only [appendTier] at h
      exact ih acc acc1 (fun q hq hqk => hnull q (List.mem_cons_of_mem _ hq) hqk) h
    | some t =>
      have hne : k1 ≠ k := by
        intro heq
        have h0 := hnull (k1, some t) (List.mem_cons_self _ _) heq
        simp at h0
      simp only [appendTier] at h
      cases h3 : appendField acc k1 t with
      | error e => rw [h3] at h; simp at h
      | ok accm =>
        rw [h3] at h
        have h4 := ih accm acc1 (fun q hq hqk => hnull q (List.mem_cons_of_mem _ hq) hqk) h
        rw [h4, lookupK_appendField_ne k acc accm k1 t hne h3]

/-- Witness for the amended C2: a chunk tier in which field x is null leaves
the accumulation list of x untouched while other fields are appended. -/
theorem later_chunk_missing_field_silently_skipped_witness :
    lookupK "x" [("x", [zerosT 1 1]), ("y", [zerosT 2 1])]
      = lookupK "x" [("x", [zerosT 1 1]), ("y", [])] :=
  later_chunk_missing_field_silently_skipped [("x", none), ("y", some (zerosT 2 1))] "x"
    [("x", [zerosT 1 1]), ("y", [])] [("x", [zerosT 1 1]), ("y", [zerosT 2 1])]
    (by decide) (by rfl)

/-- Evaluator whose second chunk reports a coarse field that the first chunk
did not have. -/
def evalNewField (chunk : List Nat) : ChunkResult :=
  if chunk = [0] then
    { outputs_coarse := [("color", some (zerosT 1 1))], outputs_fine := none }
  else
    { outputs_coarse := [("color", some (zerosT 1 1)), ("extra", some (zerosT 1 1))],
      outputs_fine := none }

/-- Counterexample to C3: a field absent from the first chunk but present and
non-null in a later chunk is NOT silently ignored: the render call aborts with
a KeyError instead of completing. -/
theorem new_field_counterexample :
    render_single_image [0, 1] 1 evalNewField 2 1 1
      = (Except.error "KeyError: extra" : Except String (RenderOutputAgg Nat)) := by
  rfl

/-- Appending under a key that the accumulator does not hold raises KeyError. -/
lemma appendField_missing_key (k : Key) :
    ∀ acc : Acc, lookupK k acc = none →
      ∀ t, appendField acc k t = Except.error ("KeyError: " ++ k) := by
  intro acc
  induction acc with
  | nil => intro _ t; rfl
  | cons p rest ih =>
    obtain ⟨k1, l⟩ := p
    intro h t
    simp only [lookupK] at h
    by_cases hk : k1 = k
    · rw [if_pos hk] at h; simp at h
    · rw [if_neg hk] at h
      simp only [appendField]
      rw [if_neg hk, ih h t]

/-- C3 (amended): a tier field that is absent (or null) in the first chunk's
result but present and non-null in a later chunk is not ignored: the per-chunk
append loop raises a KeyError for the unknown key (so the render call aborts
with an error instead of completing), and when the whole fine tier was null on
the first chunk, a later chunk carrying any non-null fine field raises a
TypeError. -/
theorem new_field_in_later_chunk_raises (k : Key) (t : Tensor) :
    (∀ tier : Tier, (k, some t) ∈ tier →
      ∀ acc : Acc, lookupK k acc = none →
        ∃ e, appendTier acc tier = Except.error e)
    ∧ (∀ tierF : Tier, tierF.any (fun p => p.2.isSome) = true →
        appendFine none (some tierF)
          = Except.error "TypeError: NoneType is not subscriptable") := by
  constructor
  · intro tier
    induction tier with
    | nil => intro hmem; simp at hmem
    | cons p rest ih =>
      intro hmem acc hk
      rcases List.mem_cons.1 hmem with heq | hmem2
      · rw [← heq]
        simp only [appendTier]
        rw [appendField_missing_key k acc hk t]
        exact ⟨_, rfl⟩
      · obtain ⟨k1, v⟩ := p
        cases v with
        | none =>
          simp only [appendTier]
          exact ih hmem2 acc hk
        | some t1 =>
          simp only [appendTier]
          cases h3 : appendField acc k1 t1 with
          | error e => exact ⟨e, rfl⟩
          | ok accm =>
            have hne : k1 ≠ k := by
              intro heq
              rw [heq, appendField_missing_key k acc hk t1] at h3
              simp at h3
            have hk2 : lookupK k accm = none := by
              rw [lookupK_appendField_ne k acc accm k1 t1 hne h3]
              exact hk
            exact ih hmem2 accm hk2
  · intro tierF hany
    simp only [appendFine]
    rw [if_pos hany]

/-- Witness for the amended C3: a non-null fine field arriving when the fine
accumulator is null raises the TypeError. -/
theorem new_field_in_later_chunk_raises_witness :
    appendFine none (some [("f", some (zerosT 1 1))])
      = Except.error "TypeError: NoneType is not subscriptable" :=
  (new_field_in_later_chunk_raises "f" (zerosT 1 1)).2 [("f", some (zerosT 1 1))] (by rfl)

/-- Evaluator returning, on every chunk, a non-null exempt coarse field
random_sigma alongside an ordinary color field. -/
def evalExempt (chunk : List Nat) : ChunkResult :=
  { outputs_coarse :=
      [("random_sigma", some (zerosT chunk.length 1)), ("color", some (zerosT chunk.length 3))]
  , outputs_fine := none }

/-- Counterexample to C4: for the exempt field random_sigma the finalized
value is the raw LIST of per-chunk tensors, not their concatenation along the
ray axis: the render finishes with the two cached one-ray tensors, while the
concatenation would be the single two-ray tensor, and the two values differ. -/
theorem exempt_field_not_concatenated_counterexample :
    (render_single_image [0, 1] 1 evalExempt 2 1 1).map
      (fun o => lookupK "random_sigma" o.outputs_coarse)
      = Except.ok (some (DictVal.chunkList [zerosT 1 1, zerosT 1 1]))
    ∧ Tensor.catDim0 [zerosT 1 1, zerosT 1 1] = Except.ok ⟨[2, 1], [0, 0]⟩
    ∧ DictVal.chunkList [zerosT 1 1, zerosT 1 1] ≠ DictVal.tensor ⟨[2, 1], [0, 0]⟩ := by
  refine ⟨by rfl, by rfl, by decide⟩

/-- C4 (amended): in the merge loop, the two exempt fields random_sigma and
depth_cov keep the raw list of cached per-chunk tensors (they are never
concatenated, reshaped or squeezed), while every other discovered field is
concatenated along the ray axis, reshaped to the strided image grid with an
inferred channel dimension, and squeezed. -/
theorem exempt_fields_stay_per_chunk (hs ws : Nat) :
    ∀ (acc : Acc) (out : List (Key × DictVal)),
      finalizeAcc hs ws acc = Except.ok out →
      List.Forall₂ (fun (p : Key × List Tensor) (q : Key × DictVal) =>
        q.1 = p.1 ∧
        ((p.1 = "random_sigma" ∨ p.1 = "depth_cov") → q.2 = DictVal.chunkList p.2) ∧
        (¬(p.1 = "random_sigma" ∨ p.1 = "depth_cov") →
          ∃ c r, Tensor.catDim0 p.2 = Except.ok c
            ∧ Tensor.reshapeHWInfer c hs ws = Except.ok r
            ∧ q.2 = DictVal.tensor r.squeeze)) acc out := by
  intro acc
  induction acc with
  | nil =>
    intro out h
    simp only [finalizeAcc] at h
    injection h with h2
    rw [← h2]
    exact List.Forall₂.nil
  | cons p rest ih =>
    obtain ⟨k, l⟩ := p
    intro out h
    simp only [finalizeAcc] at h
    split at h
    · rename_i hex
      split at h
      · simp at h
      · rename_i rest1 h2
        injection h with h3
        rw [← h3]
        exact List.Forall₂.cons ⟨rfl, fun _ => rfl, fun hc => absurd hex hc⟩ (ih rest1 h2)
    · rename_i hex
      split at h
      · simp at h
      · rename_i c h2
        split at h
        · simp at h
        · rename_i r h3
          split at h
          · simp at h
          · rename_i rest1 h4
            injection h with h5
            rw [← h5]
            exact List.Forall₂.cons
              ⟨rfl, fun hc => absurd hc hex, fun _ => ⟨c, r, h2, h3, rfl⟩⟩ (ih rest1 h4)

/-- Witness for the amended C4 on a one-field accumulator holding the exempt
field depth_cov. -/
theorem exempt_fields_stay_per_chunk_witness :
    List.Forall₂ (fun (p : Key × List Tensor) (q : Key × DictVal) =>
        q.1 = p.1 ∧
        ((p.1 = "random_sigma" ∨ p.1 = "depth_cov") → q.2 = DictVal.chunkList p.2) ∧
        (¬(p.1 = "random_sigma" ∨ p.1 = "depth_cov") →
          ∃ c r, Tensor.catDim0 p.2 = Except.ok c
            ∧ Tensor.reshapeHWInfer c 1 1 = Except.ok r
            ∧ q.2 = DictVal.tensor r.squeeze))
      [("depth_cov", [zerosT 1 1])]
      [("depth_cov", DictVal.chunkList [zerosT 1 1])] :=
  exempt_fields_stay_per_chunk 1 1 [("depth_cov", [zerosT 1 1])]
    [("depth_cov", DictVal.chunkList [zerosT 1 1])] (by rfl)

/-- States of the render state machine (render_state_machine.py). -/
inductive RenderState where
  | IDLE
  | RENDERING
  | PROCESSING
  | VISUALIZING
  | ERROR
  deriving DecidableEq, Repr

/-- A numpy array, abstracted to a flat list of scalars; only its length is
ever observed (len of the points array). -/
abbrev Arr := List Int

/-- Metadata attached to a published output; the wall-clock timestamp of the
source is not modelled, only the point count. -/
structure Metadata where
  num_points : Nat
  deriving DecidableEq, Repr

/-- Container for render outputs (dataclass RenderOutput). -/
structure RenderOutput where
  points : Arr
  colors : Arr
  depths : Arr
  normals : Option Arr
  metadata : Option Metadata
  deriving DecidableEq, Repr

/-- The render_data dictionary handed to process_render_output; a `none`
field models a missing key. -/
structure RenderData where
  points : Option Arr
  colors : Option Arr
  depths : Option Arr
  normals : Option Arr
  deriving DecidableEq, Repr

/-- The state machine: current state, the current-output slot and the handoff
queue (front of the list is the next element to be dequeued). -/
structure RenderStateMachine where
  state : RenderState
  current_output : Option RenderOutput
  output_queue : List RenderOutput
  deriving DecidableEq, Repr

/-- The machine as constructed: Idle, empty slot, empty queue. -/
def RenderStateMachine.init : RenderStateMachine :=
  ⟨RenderState.IDLE, none, []⟩

/-- start_render: Idle → Rendering, otherwise nothing happens. -/
def start_render (m : RenderStateMachine) : RenderStateMachine :=
  if m.state = RenderState.IDLE then { m with state := RenderState.RENDERING } else m

/-- Construction of the RenderOutput object inside process_render_output: a
missing points, colors or depths key raises (KeyError), normals falls back to
None via .get, and metadata records the point count. -/
def mkRenderOutput (d : RenderData) : Option RenderOutput :=
  match d.points, d.colors, d.depths with
  | some p, some c, some dp =>
      some { points := p, colors := c, depths := dp, normals := d.normals,
             metadata := some { num_points := p.length } }
  | _, _, _ => none

/-- process_render_output: only acts from Rendering.  On success it stores the
output in the slot, enqueues it and moves to Visualizing (the transient
Processing state is not observable in this atomic step); any construction
failure is caught, logged and leaves the machine in Error with slot and queue
untouched — nothing is raised to the caller. -/
def process_render_output (m : RenderStateMachine) (d : RenderData) : RenderStateMachine :=
  if m.state = RenderState.RENDERING then
    match mkRenderOutput d with
    | some out =>
        { m with state := RenderState.VISUALIZING,
                 current_output := some out,
                 output_queue := m.output_queue ++ [out] }
    | none => { m with state := RenderState.ERROR }
  else m

/-- get_latest_output: a pure read of the current-output slot. -/
def get_latest_output (m : RenderStateMachine) : Option RenderOutput :=
  m.current_output

/-- get_next_output: dequeue the front of the handoff queue, or None when the
queue is empty (the poll timeout). -/
def get_next_output (m : RenderStateMachine) : RenderStateMachine × Option RenderOutput :=
  match m.output_queue with
  | [] => (m, none)
  | o :: rest => ({ m with output_queue := rest }, some o)

/-- reset: from any state back to Idle, clearing the slot and draining the
queue. -/
def reset (m : RenderStateMachine) : RenderStateMachine :=
  { m with state := RenderState.IDLE, current_output := none, output_queue := [] }

/-- One operation of a producer/consumer trace against a session's machine. -/
inductive Op where
  | startRender
  | publish (d : RenderData)
  | poll
  | reset
  deriving DecidableEq

/-- The output successfully published by one publish call, if any. -/
def publishedBy (m : RenderStateMachine) (d : RenderData) : List RenderOutput :=
  if m.state = RenderState.RENDERING then
    match mkRenderOutput d with
    | some out => [out]
    | none => []
  else []

/-- Result of running a trace: the final machine, the outputs returned by the
polls in order, and the outputs successfully published in order. -/
structure TraceResult where
  machine : RenderStateMachine
  polled : List RenderOutput
  published : List RenderOutput
  deriving DecidableEq

/-- Run a sequence of operations against a machine, recording polled and
published outputs in order. -/
def runTrace (m : RenderStateMachine) : List Op → TraceResult
  | [] => ⟨m, [], []⟩
  | Op.startRender :: rest => runTrace (start_render m) rest
  | Op.publish d :: rest =>
      let r := runTrace (process_render_output m d) rest
      ⟨r.machine, r.polled, publishedBy m d ++ r.published⟩
  | Op.poll :: rest =>
      let s := get_next_output m
      let r := runTrace s.1 rest
      ⟨r.machine, s.2.toList ++ r.polled, r.published⟩
  | Op.reset :: rest => runTrace (reset m) rest

/-- A render_data payload whose points array is the single scalar n. -/
def dOut (n : Int) : RenderData := ⟨some [n], some [0], some [0], none⟩

/-- The RenderOutput constructed from `dOut n`. -/
def oOut (n : Int) : RenderOutput := ⟨[n], [0], [0], none, some ⟨1⟩⟩

/-- A trace publishing O1, O2, O3, each from the Rendering state.  The only
way to re-enter Rendering after a publish is reset-then-start, and reset
drains the handoff queue, so O1 and O2 are discarded before they can be
polled. -/
def opsThreePublishes : List Op :=
  [Op.startRender, Op.publish (dOut 1), Op.reset,
   Op.startRender, Op.publish (dOut 2), Op.reset,
   Op.startRender, Op.publish (dOut 3), Op.poll, Op.poll, Op.poll]

/-- Counterexample to C6: in this trace the outputs O1, O2, O3 are all
successfully published, each from the Rendering state (they appear in the
published list, which only records publishes accepted in Rendering), yet the
successive polls return only O3 — not the three outputs in order. -/
theorem fifo_counterexample :
    (runTrace RenderStateMachine.init opsThreePublishes).published
      = [oOut 1, oOut 2, oOut 3]
    ∧ (runTrace RenderStateMachine.init opsThreePublishes).polled = [oOut 3]
    ∧ ([oOut 3] : List RenderOutput) ≠ [oOut 1, oOut 2, oOut 3] := by
  refine ⟨by rfl, by rfl, by decide⟩

/-- Trace invariant: the outputs polled so far, followed by the queue
contents, form a sublist (in order) of the outputs published so far. -/
lemma runTrace_polled_sublist (ops : List Op) :
    ∀ m : RenderStateMachine,
      List.Sublist ((runTrace m ops).polled)
        (m.output_queue ++ (runTrace m ops).published) := by
  induction ops with
  | nil => intro m; simp [runTrace]
  | cons op rest ih =>
    intro m
    cases op with
    | startRender =>
      simp only [runTrace]
      have h := ih (start_render m)
      have hq : (start_render m).output_queue = m.output_queue := by
        simp only [start_render]; split <;> rfl
      rw [hq] at h
      exact h
    | publish d =>
      simp only [runTrace]
      have h := ih (process_render_output m d)
      by_cases hs : m.state = RenderState.RENDERING
      · cases hmk : mkRenderOutput d with
        | some out =>
          have hq : (process_render_output m d).output_queue = m.output_queue ++ [out] := by
            simp only [process_render_output]; rw [if_pos hs, hmk]
          have hp : publishedBy m d = [out] := by
            simp only [publishedBy]; rw [if_pos hs, hmk]
          rw [hq] at h
          rw [hp, ← List.append_assoc]
          exact h
        | none =>
          have hq : (process_render_output m d).output_queue = m.output_queue := by
            simp only [process_render_output]; rw [if_pos hs, hmk]
          have hp : publishedBy m d = [] := by
            simp only [publishedBy]; rw [if_pos hs, hmk]
          rw [hq] at h
          rw [hp]
          simpa using h
      · have hq : process_render_output m d = m := by
          simp only [process_render_output]; rw [if_neg hs]
        have hp : publishedBy m d = [] := by
          simp only [publishedBy]; rw [if_neg hs]
        rw [hq, hp]
        simpa using ih m
    | poll =>
      simp only [runTrace]
      cases hq : m.output_queue with
      | nil =>
        have hgn : get_next_output m = (m, none) := by
          simp only [get_next_output]; rw [hq]
        rw [hgn]
        show ((none : Option RenderOutput).toList ++ (runTrace m rest).polled).Sublist
          ([] ++ (runTrace m rest).published)
        have h := ih m
        rw [hq] at h
        simpa using h
      | cons o q =>
        have hgn : get_next_output m = ({ m with output_queue := q }, some o) := by
          simp only [get_next_output]; rw [hq]
        rw [hgn]
        show ((some o).toList ++ (runTrace { m with output_queue := q } rest).polled).Sublist
          ((o :: q) ++ (runTrace { m with output_queue := q } rest).published)
        have h := ih { m with output_queue := q }
        rw [List.cons_append]
        exact List.Sublist.cons₂ o (by simpa using h)
    | reset =>
      simp only [runTrace]
      have h := ih (reset m)
      have hq2 : (reset m).output_queue = [] := rfl
      rw [hq2] at h
      simp only [List.nil_append] at h
      exact h.trans (List.sublist_append_right _ _)

/-- C6 (amended): within one session, polls never reorder or duplicate
outputs — along any operation trace from the initial machine, the sequence of
outputs returned by polls is a sublist, in publish order, of the successfully
published outputs; each successful publish stores its output in the
current-output slot and appends it to the back of the handoff queue.  The
unamended FIFO claim fails because re-entering Rendering for the next publish
requires a reset, which drains the queue and clears the slot, discarding
unpolled outputs. -/
theorem session_polls_in_publish_order (ops : List Op) :
    List.Sublist ((runTrace RenderStateMachine.init ops).polled)
      ((runTrace RenderStateMachine.init ops).published)
    ∧ ∀ (m : RenderStateMachine) (d : RenderData) (out : RenderOutput),
        m.state = RenderState.RENDERING → mkRenderOutput d = some out →
        (process_render_output m d).current_output = some out
        ∧ (process_render_output m d).output_queue = m.output_queue ++ [out] := by
  constructor
  · have h := runTrace_polled_sublist ops RenderStateMachine.init
    simpa using h
  · intro m d out hs hmk
    simp only [process_render_output]
    rw [if_pos hs, hmk]
    exact ⟨rfl, rfl⟩

/-- Witness for the amended C6 on a start-publish-poll trace. -/
theorem session_polls_in_publish_order_witness :
    List.Sublist
      (runTrace RenderStateMachine.init [Op.startRender, Op.publish (dOut 1), Op.poll]).polled
      (runTrace RenderStateMachine.init [Op.startRender, Op.publish (dOut 1), Op.poll]).published
    ∧ (process_render_output ⟨RenderState.RENDERING, none, []⟩ (dOut 1)).current_output
        = some (oOut 1)
    ∧ (process_render_output ⟨RenderState.RENDERING, none, []⟩ (dOut 1)).output_queue
        = [] ++ [oOut 1] := by
  refine ⟨(session_polls_in_publish_order [Op.startRender, Op.publish (dOut 1), Op.poll]).1,
    ((session_polls_in_publish_order []).2 ⟨RenderState.RENDERING, none, []⟩ (dOut 1) (oOut 1)
      (by rfl) (by rfl)).1,
    ((session_polls_in_publish_order []).2 ⟨RenderState.RENDERING, none, []⟩ (dOut 1) (oOut 1)
      (by rfl) (by rfl)).2⟩

/-- C7: a transition attempted outside its valid source state is a no-op —
start_render from any state other than Idle, and process_render_output
(publish) from any state other than Rendering, leave the state, the
current-output slot and the handoff queue all unchanged. -/
theorem invalid_transitions_are_noops :
    (∀ m : RenderStateMachine, m.state ≠ RenderState.IDLE → start_render m = m)
    ∧ (∀ (m : RenderStateMachine) (d : RenderData),
        m.state ≠ RenderState.RENDERING → process_render_output m d = m) := by
  constructor
  · intro m h
    simp only [start_render]
    rw [if_neg h]
  · intro m d h
    simp only [process_render_output]
    rw [if_neg h]

/-- Witness for C7: start_render while Rendering and publish while Idle both
leave the machine untouched. -/
theorem invalid_transitions_are_noops_witness :
    start_render ⟨RenderState.RENDERING, none, []⟩ = ⟨RenderState.RENDERING, none, []⟩
    ∧ process_render_output ⟨RenderState.IDLE, none, []⟩ ⟨none, none, none, none⟩
        = ⟨RenderState.IDLE, none, []⟩ :=
  ⟨invalid_transitions_are_noops.1 _ (by decide),
   invalid_transitions_are_noops.2 _ _ (by decide)⟩

/-- C8: reset from any state leaves the machine Idle with an empty slot and an
empty queue, and resetting twice gives the same machine as resetting once. -/
theorem reset_clears_and_idempotent :
    ∀ m : RenderStateMachine,
      (reset m).state = RenderState.IDLE ∧ (reset m).current_output = none
      ∧ (reset m).output_queue = [] ∧ reset (reset m) = reset m := by
  intro m
  exact ⟨rfl, rfl, rfl, rfl⟩

/-- C10: publishing from Rendering with a payload missing any of the keys
points, colors or depths raises nothing to the caller (the model is a total
function, as the source catches every exception), ends in the Error state,
and leaves the current-output slot and the handoff queue exactly as they
were. -/
theorem publish_malformed_payload_atomic_error :
    ∀ (m : RenderStateMachine) (d : RenderData), m.state = RenderState.RENDERING →
      (d.points = none ∨ d.colors = none ∨ d.depths = none) →
      process_render_output m d = { m with state := RenderState.ERROR } := by
  intro m d hs hmiss
  have hmk : mkRenderOutput d = none := by
    cases hp : d.points <;> cases hc : d.colors <;> cases hd : d.depths <;>
      simp_all [mkRenderOutput]
  simp only [process_render_output]
  rw [if_pos hs, hmk]

/-- Witness for C10: a Rendering machine with a queued output, fed a payload
with no points key, moves to Error keeping slot and queue. -/
theorem publish_malformed_payload_atomic_error_witness :
    process_render_output
      ⟨RenderState.RENDERING, none, [⟨[1], [0], [0], none, some ⟨1⟩⟩]⟩
      ⟨none, some [0], some [0], none⟩
      = ⟨RenderState.ERROR, none, [⟨[1], [0], [0], none, some ⟨1⟩⟩]⟩ :=
  publish_malformed_payload_atomic_error _ _ (by decide) (by decide)

/-- A per-client render session of visualization.py (the per-client
RenderStateMachine object); only its stop flag is relevant here. -/
structure VizSession where
  running : Bool
  deriving DecidableEq, Repr

/-- The Viewer of visualization.py: its readiness flag and the per-client
registry render_statemachines keyed by client id.  GUI-only fields are
elided. -/
structure VizViewer where
  ready : Bool
  render_statemachines : List (Nat × VizSession)
  deriving DecidableEq, Repr

/-- The viewer as constructed: not ready, empty registry. -/
def VizViewer.init : VizViewer := ⟨false, []⟩

/-- Dictionary assignment: replace the value under a key, or append the pair. -/
def setK {κ β : Type} [DecidableEq κ] (k : κ) (b : β) : List (κ × β) → List (κ × β)
  | [] => [(k, b)]
  | (k1, b1) :: rest => if k1 = k then (k1, b) :: rest else (k1, b1) :: setK k b rest

/-- Dictionary deletion of a (unique) key. -/
def removeK {κ β : Type} [DecidableEq κ] (k : κ) : List (κ × β) → List (κ × β)
  | [] => []
  | (k1, b1) :: rest => if k1 = k then rest else (k1, b1) :: removeK k rest

/-- handle_new_client: register a fresh running session for the client id. -/
def handle_new_client (v : VizViewer) (cid : Nat) : VizViewer :=
  { v with render_statemachines := setK cid ⟨true⟩ v.render_statemachines }

/-- visualize_3d_data, reduced to its only state effect on the viewer: the
first call flips ready to true (scene drawing is external). -/
def visualize_3d_data (v : VizViewer) : VizViewer :=
  if v.ready = false then { v with ready := true } else v

/-- handle_disconnect: if the client id is registered, stop its session loop
and delete it from the registry; otherwise nothing happens. -/
def handle_disconnect (v : VizViewer) (cid : Nat) : VizViewer :=
  match lookupK cid v.render_statemachines with
  | some _ => { v with render_statemachines := removeK cid v.render_statemachines }
  | none => v

/-- The camera on_update callback installed by handle_new_client: when the
viewer is not ready it returns silently; otherwise it subscripts the registry
with the client id — a KeyError for an unregistered (e.g. disconnected)
client — and for a registered client triggers the move action, which redraws
via visualize_3d_data.  The Bool reports whether a redraw was triggered. -/
def camera_update_handler (v : VizViewer) (cid : Nat) : Except String (VizViewer × Bool) :=
  if v.ready = false then Except.ok (v, false)
  else
    match lookupK cid v.render_statemachines with
    | none => Except.error ("KeyError: " ++ toString cid)
    | some _ => Except.ok (visualize_3d_data v, true)

/-- Counterexample to C9: a camera event for a client that connected, was
shown a frame (so the viewer is ready) and then disconnected is NOT dropped
silently — the handler raises a KeyError from the registry subscript. -/
theorem unknown_session_event_counterexample :
    camera_update_handler
      (handle_disconnect (visualize_3d_data (handle_new_client VizViewer.init 7)) 7) 7
      = Except.error "KeyError: 7" := by
  rfl

/-- C9 (amended): an event whose client id has no registered session is
dropped silently only while the viewer is not ready; once the viewer is
ready, such an event raises a KeyError from the registry lookup.  In neither
case is any session's state modified (the viewer is returned unchanged or the
handler aborts before any mutation). -/
theorem unknown_session_event_behavior (v : VizViewer) (cid : Nat)
    (h : lookupK cid v.render_statemachines = none) :
    (v.ready = false → camera_update_handler v cid = Except.ok (v, false))
    ∧ (v.ready = true → camera_update_handler v cid
        = Except.error ("KeyError: " ++ toString cid)) := by
  constructor
  · intro hr
    simp only [camera_update_handler]
    rw [if_pos hr]
  · intro hr
    simp only [camera_update_handler]
    rw [if_neg (by rw [hr]; simp), h]

/-- Witness for the amended C9 at a ready viewer with an empty registry. -/
theorem unknown_session_event_behavior_witness :
    ((⟨true, []⟩ : VizViewer).ready = false →
      camera_update_handler ⟨true, []⟩ 3 = Except.ok (⟨true, []⟩, false))
    ∧ ((⟨true, []⟩ : VizViewer).ready = true →
      camera_update_handler ⟨true, []⟩ 3 = Except.error ("KeyError: " ++ toString 3)) :=
  unknown_session_event_behavior ⟨true, []⟩ 3 (by rfl)

end MaFinal
